import Mathlib

/-!
Verification of the keystone post-quantum bridge layer (src/addons).

The four C++ source files are shallowly embedded below:
- `select_kyber_alg`, `select_dilithium_alg` mirror the security-level
  resolution helpers in kyber_encrypt.cpp:41-51 and dilithium_encrypt.cpp:34-44.
- `Encrypt` / `Decrypt` mirror the hybrid framing path of kyber_encrypt.cpp
  (lines 104-256 and 259-423).  The external liboqs KEM calls
  (`OQS_KEM_encaps` / `OQS_KEM_decaps`) are modelled as function parameters,
  since the lattice cryptography is an external collaborator per the spec.
- `Sign` / `Verify` mirror dilithium_encrypt.cpp (lines 96-192 and 195-272),
  with the external `OQS_SIG_sign` / `OQS_SIG_verify` outcomes as parameters.
- The `*Wrapped` functions mirror the Node-addon boundary adapters in
  kyber_node_addon.cpp and dilithium_node_addon.cpp.

Bytes are modelled as `Nat` (meaningful values are < 256; hypotheses state the
bound where a proof needs it); the 32-bit checksum arithmetic carries an
explicit `% 2 ^ 32` exactly where the C `uint32_t` operations wrap.
-/

namespace Keystone

abbrev Byte := Nat

/-- The three ML-KEM algorithm identifiers reachable from
`select_kyber_alg` (kyber_encrypt.cpp:41-51). -/
inductive KemAlg
  | mlKem512
  | mlKem768
  | mlKem1024
deriving DecidableEq

/-- The three ML-DSA algorithm identifiers reachable from
`select_dilithium_alg` (dilithium_encrypt.cpp:34-44). -/
inductive SigAlg
  | mlDsa44
  | mlDsa65
  | mlDsa87
deriving DecidableEq

/-- Security-level resolution for the KEM family, kyber_encrypt.cpp:41-51:
the string-compare chain over the tokens 512, 768, 1024, returning null
for every other token. -/
def select_kyber_alg (security_level : String) : Option KemAlg :=
  if security_level = "512" then some KemAlg.mlKem512
  else if security_level = "768" then some KemAlg.mlKem768
  else if security_level = "1024" then some KemAlg.mlKem1024
  else none

/-- Security-level resolution for the signature family,
dilithium_encrypt.cpp:34-44: "2", "3", "5" map to ML-DSA-44/65/87. -/
def select_dilithium_alg (security_level : String) : Option SigAlg :=
  if security_level = "2" then some SigAlg.mlDsa44
  else if security_level = "3" then some SigAlg.mlDsa65
  else if security_level = "5" then some SigAlg.mlDsa87
  else none

/-- The per-algorithm fixed lengths published by the external primitives
library through the `OQS_KEM` handle (fields `length_public_key`,
`length_secret_key`, `length_ciphertext`, `length_shared_secret`). -/
structure OQSKem where
  length_public_key : Nat
  length_secret_key : Nat
  length_ciphertext : Nat
  length_shared_secret : Nat
deriving DecidableEq

/-- The per-algorithm fixed lengths published through the `OQS_SIG` handle. -/
structure OQSSig where
  length_public_key : Nat
  length_secret_key : Nat
  length_signature : Nat
deriving DecidableEq

/-- Fixed ML-KEM lengths.  The public/secret key sizes are hardcoded in
kyber_node_addon.cpp:132-134 and 220-222 (800/1184/1568 and 1632/2400/3168);
the ciphertext and shared-secret sizes (768/1088/1568 and 32) are supplied by
the external primitives library (FIPS 203), which the spec treats as an
external collaborator providing the four fixed lengths per algorithm. -/
def kemAlgProfile : KemAlg → OQSKem
  | KemAlg.mlKem512 => ⟨800, 1632, 768, 32⟩
  | KemAlg.mlKem768 => ⟨1184, 2400, 1088, 32⟩
  | KemAlg.mlKem1024 => ⟨1568, 3168, 1568, 32⟩

/-- Fixed ML-DSA lengths.  The public/secret key sizes are hardcoded in
dilithium_node_addon.cpp:132-134 and 227-229 (1312/1952/2592 and
2560/4032/4896); the signature sizes (2420/3309/4627) are supplied by the
external primitives library (FIPS 204). -/
def sigAlgProfile : SigAlg → OQSSig
  | SigAlg.mlDsa44 => ⟨1312, 2560, 2420⟩
  | SigAlg.mlDsa65 => ⟨1952, 4032, 3309⟩
  | SigAlg.mlDsa87 => ⟨2592, 4896, 4627⟩

/-- The hardcoded 16-byte nonce of kyber_encrypt.cpp:181-184
(0x01, 0x02, ..., 0x10), used on every Encrypt call. -/
def hardcodedNonce : List Byte :=
  [1, 2, 3, 4, 5, 6, 7, 8, 9, 10, 11, 12, 13, 14, 15, 16]

/-- The wrap-around modulus 2 ^ 32 of the C `uint32_t` checksum. -/
def U32 : Nat := 4294967296

/-- One step of the checksum loop, kyber_encrypt.cpp:200 / 372:
`checksum = ((checksum << 5) + checksum) + byte` in `uint32_t` arithmetic,
so the shift and each addition wrap modulo 2 ^ 32. -/
def checksumStep (cs b : Nat) : Nat :=
  (((cs <<< 5) % U32 + cs) % U32 + b) % U32

/-- The 32-bit rolling checksum over a byte sequence,
kyber_encrypt.cpp:198-201. -/
def checksum (l : List Byte) : Nat :=
  l.foldl checksumStep 0

/-- The checksum recurrence exactly as the spec words it (section 4.3 step 4):
`checksum = checksum*33 + byte` modulo 2 ^ 32, starting from 0.  Used only to
compare against `checksum`, which is taken from the source. -/
def specChecksum33 (l : List Byte) : Nat :=
  l.foldl (fun cs b => (cs * 33 + b) % 2 ^ 32) 0

/-- Little-endian serialization of the 4-byte checksum field.  The C code
stores the `uint32_t` with `memcpy` (kyber_encrypt.cpp:222); on the addon's
little-endian targets the byte order is least-significant first, which is
also the layout the spec documents. -/
def toLE4 (x : Nat) : List Byte :=
  [x % 256, x / 256 % 256, x / 65536 % 256, x / 16777216 % 256]

/-- Little-endian deserialization of the 4-byte checksum field
(kyber_encrypt.cpp:346-347). -/
def fromLE4 (l : List Byte) : Nat :=
  l.getD 0 0 + 256 * l.getD 1 0 + 65536 * l.getD 2 0 + 16777216 * l.getD 3 0

/-- The XOR masking loop starting at stream index `i`:
each byte is XORed with `ss[i % ss.length]` and `nonce[i % nonce.length]`
(kyber_encrypt.cpp:191-193 and 363-365). -/
def maskFrom (ss nonce : List Byte) : Nat → List Byte → List Byte
  | _, [] => []
  | i, b :: rest =>
    (b ^^^ ss.getD (i % ss.length) 0 ^^^ nonce.getD (i % nonce.length) 0) ::
      maskFrom ss nonce (i + 1) rest

/-- The XOR masking of a whole buffer, as in the loops of
kyber_encrypt.cpp:191-193 (Encrypt) and 363-365 (Decrypt). -/
def maskBytes (data ss nonce : List Byte) : List Byte :=
  maskFrom ss nonce 0 data

/-- Classification of the C-level failure exits.  The C functions all return
-1; the constructor records which guard fired (each guard has its own
distinct stderr message in the source), matching the spec's error taxonomy. -/
inductive CryptoError
  | invalidSecurityLevel
  | invalidInput
  | primitiveFailure
  | integrityFailure
deriving DecidableEq

/-- Hybrid Encrypt, kyber_encrypt.cpp:104-256.  Guard order follows the
source: empty-plaintext check (line 116), security-level resolution
(line 130), public-key length check (line 147), KEM encapsulation
(line 166, modelled by the `encaps` parameter: `none` is a native failure),
then XOR masking, checksum, and container assembly (lines 188-239). -/
def Encrypt (security_level : String) (pk plaintext : List Byte)
    (encaps : List Byte → Option (List Byte × List Byte)) :
    Except CryptoError (List Byte) :=
  if plaintext.length = 0 then Except.error CryptoError.invalidInput
  else
    match select_kyber_alg security_level with
    | none => Except.error CryptoError.invalidSecurityLevel
    | some alg =>
      let kem := kemAlgProfile alg
      if pk.length ≠ kem.length_public_key then
        Except.error CryptoError.invalidInput
      else
        match encaps pk with
        | none => Except.error CryptoError.primitiveFailure
        | some (kemCt, ss) =>
          Except.ok (kemCt ++ hardcodedNonce ++ toLE4 (checksum plaintext) ++
            maskBytes plaintext ss hardcodedNonce)

/-- Hybrid Decrypt, kyber_encrypt.cpp:259-423.  Guard order follows the
source: security-level resolution (line 278), secret-key length check
(line 298), minimum-length check `kemCiphertextLen + 16 + 4` (lines 305-312),
KEM decapsulation on the leading ciphertext bytes (line 325, modelled by the
`decaps` parameter), then nonce/checksum/payload extraction by fixed offsets
(lines 338-353), XOR unmasking (lines 363-365), and the checksum comparison
(line 377), which on mismatch fails without returning any plaintext bytes. -/
def Decrypt (security_level : String) (sk ciphertext : List Byte)
    (decaps : List Byte → List Byte → Option (List Byte)) :
    Except CryptoError (List Byte) :=
  match select_kyber_alg security_level with
  | none => Except.error CryptoError.invalidSecurityLevel
  | some alg =>
    let kem := kemAlgProfile alg
    if sk.length ≠ kem.length_secret_key then
      Except.error CryptoError.invalidInput
    else if ciphertext.length < kem.length_ciphertext + 16 + 4 then
      Except.error CryptoError.invalidInput
    else
      match decaps sk (ciphertext.take kem.length_ciphertext) with
      | none => Except.error CryptoError.primitiveFailure
      | some ss =>
        let rest := ciphertext.drop kem.length_ciphertext
        let nonce := rest.take 16
        let receivedChecksum := fromLE4 ((rest.drop 16).take 4)
        let plaintext := maskBytes (rest.drop 20) ss nonce
        if checksum plaintext ≠ receivedChecksum then
          Except.error CryptoError.integrityFailure
        else Except.ok plaintext

/-- Sign, dilithium_encrypt.cpp:96-192.  Guard order: empty-message check
(line 108), security-level resolution (line 122), secret-key length check
(line 139), then the native signing call (line 162, modelled by `primSig`:
`none` is a native failure, `some s` the produced signature bytes). -/
def Sign (security_level : String) (sk msg : List Byte)
    (primSig : Option (List Byte)) : Except CryptoError (List Byte) :=
  if msg.length = 0 then Except.error CryptoError.invalidInput
  else
    match select_dilithium_alg security_level with
    | none => Except.error CryptoError.invalidSecurityLevel
    | some alg =>
      if sk.length ≠ (sigAlgProfile alg).length_secret_key then
        Except.error CryptoError.invalidInput
      else
        match primSig with
        | none => Except.error CryptoError.primitiveFailure
        | some s => Except.ok s

/-- Verify, dilithium_encrypt.cpp:195-272.  Guard order: empty-message check
(line 207), empty-signature check (line 212), security-level resolution
(line 223), public-key length check (line 240) — the signature length is
never compared to the profile's signature length — then `OQS_SIG_verify`
(line 252, outcome modelled by `primAccepts`).  A non-success primitive
result returns 1 ("invalid signature, not an error", line 258), modelled as
`Except.ok false`; success returns 0, modelled as `Except.ok true`. -/
def Verify (security_level : String) (pk msg sig : List Byte)
    (primAccepts : Bool) : Except CryptoError Bool :=
  if msg.length = 0 then Except.error CryptoError.invalidInput
  else if sig.length = 0 then Except.error CryptoError.invalidInput
  else
    match select_dilithium_alg security_level with
    | none => Except.error CryptoError.invalidSecurityLevel
    | some alg =>
      if pk.length ≠ (sigAlgProfile alg).length_public_key then
        Except.error CryptoError.invalidInput
      else Except.ok primAccepts

/-- Classification of the Node-addon wrapper failure exits; each constructor
corresponds to one family of thrown messages in the wrapper sources. -/
inductive WrapError
  | badLevel
  | emptyBuffer
  | sizeMismatch
  | nativeFailure
deriving DecidableEq

/-- True exactly for the wrapper errors the spec classifies as
`InvalidInput` (empty buffer or profile-length mismatch). -/
def WrapError.isInvalidInputClass : WrapError → Bool
  | WrapError.emptyBuffer => true
  | WrapError.sizeMismatch => true
  | _ => false

/-- Expected public-key size table of kyber_node_addon.cpp:131-134
(initialized to 0, then set per level). -/
def kemExpectedPubKeySize (level : String) : Nat :=
  if level = "512" then 800
  else if level = "768" then 1184
  else if level = "1024" then 1568
  else 0

/-- Expected secret-key size table of kyber_node_addon.cpp:219-222. -/
def kemExpectedSecKeySize (level : String) : Nat :=
  if level = "512" then 1632
  else if level = "768" then 2400
  else if level = "1024" then 3168
  else 0

/-- Expected public-key size table of dilithium_node_addon.cpp:226-229. -/
def dsaExpectedPubKeySize (level : String) : Nat :=
  if level = "2" then 1312
  else if level = "3" then 1952
  else if level = "5" then 2592
  else 0

/-- Expected secret-key size table of dilithium_node_addon.cpp:131-134. -/
def dsaExpectedSecKeySize (level : String) : Nat :=
  if level = "2" then 2560
  else if level = "3" then 4032
  else if level = "5" then 4896
  else 0

/-- Encrypt wrapper, kyber_node_addon.cpp:96-179.  Order: level-token
validation (line 114, before anything native), public-key emptiness
(line 122), plaintext emptiness (line 126), public-key size (line 136),
then the native Encrypt call; `ret != 0` or an empty output buffer throws. -/
def EncryptWrapped (level : String) (pk pt : List Byte)
    (encaps : List Byte → Option (List Byte × List Byte)) :
    Except WrapError (List Byte) :=
  if ¬(level = "512" ∨ level = "768" ∨ level = "1024") then
    Except.error WrapError.badLevel
  else if pk.length = 0 then Except.error WrapError.emptyBuffer
  else if pt.length = 0 then Except.error WrapError.emptyBuffer
  else if pk.length ≠ kemExpectedPubKeySize level then
    Except.error WrapError.sizeMismatch
  else
    match Encrypt level pk pt encaps with
    | Except.error _ => Except.error WrapError.nativeFailure
    | Except.ok ct =>
      if ct.length = 0 then Except.error WrapError.nativeFailure
      else Except.ok ct

/-- Decrypt wrapper, kyber_node_addon.cpp:184-266.  Order: level-token
validation (line 202), secret-key emptiness (line 210), ciphertext emptiness
(line 214), secret-key size (line 224), then the native Decrypt call.  The
wrapper checks only `ret != 0 || !outPlain` — a zero-length plaintext is
returned as an (empty) Buffer. -/
def DecryptWrapped (level : String) (sk ct : List Byte)
    (decaps : List Byte → List Byte → Option (List Byte)) :
    Except WrapError (List Byte) :=
  if ¬(level = "512" ∨ level = "768" ∨ level = "1024") then
    Except.error WrapError.badLevel
  else if sk.length = 0 then Except.error WrapError.emptyBuffer
  else if ct.length = 0 then Except.error WrapError.emptyBuffer
  else if sk.length ≠ kemExpectedSecKeySize level then
    Except.error WrapError.sizeMismatch
  else
    match Decrypt level sk ct decaps with
    | Except.error _ => Except.error WrapError.nativeFailure
    | Except.ok pt => Except.ok pt

/-- KEM keypair wrapper, kyber_node_addon.cpp:39-91: level-token validation
(line 50) precedes the native call (modelled by `native`). -/
def GenerateKeypairKemWrapped (level : String)
    (native : Option (List Byte × List Byte)) :
    Except WrapError (List Byte × List Byte) :=
  if ¬(level = "512" ∨ level = "768" ∨ level = "1024") then
    Except.error WrapError.badLevel
  else
    match native with
    | none => Except.error WrapError.nativeFailure
    | some kp => Except.ok kp

/-- Sign wrapper, dilithium_node_addon.cpp:96-179.  Order: level-token
validation (line 114), secret-key emptiness (line 122), message emptiness
(line 126), secret-key size (line 136), then the native Sign call; an empty
produced signature throws. -/
def SignWrapped (level : String) (sk msg : List Byte)
    (primSig : Option (List Byte)) : Except WrapError (List Byte) :=
  if ¬(level = "2" ∨ level = "3" ∨ level = "5") then
    Except.error WrapError.badLevel
  else if sk.length = 0 then Except.error WrapError.emptyBuffer
  else if msg.length = 0 then Except.error WrapError.emptyBuffer
  else if sk.length ≠ dsaExpectedSecKeySize level then
    Except.error WrapError.sizeMismatch
  else
    match Sign level sk msg primSig with
    | Except.error _ => Except.error WrapError.nativeFailure
    | Except.ok s =>
      if s.length = 0 then Except.error WrapError.nativeFailure
      else Except.ok s

/-- Verify wrapper, dilithium_node_addon.cpp:184-268.  Order: level-token
validation (line 204), public-key/message/signature emptiness (lines
213-223), public-key size (line 231), then the native Verify; `ret < 0`
throws, otherwise the wrapper returns the boolean `ret == 0`
(lines 249-255). -/
def VerifyWrapped (level : String) (pk msg sig : List Byte)
    (primAccepts : Bool) : Except WrapError Bool :=
  if ¬(level = "2" ∨ level = "3" ∨ level = "5") then
    Except.error WrapError.badLevel
  else if pk.length = 0 then Except.error WrapError.emptyBuffer
  else if msg.length = 0 then Except.error WrapError.emptyBuffer
  else if sig.length = 0 then Except.error WrapError.emptyBuffer
  else if pk.length ≠ dsaExpectedPubKeySize level then
    Except.error WrapError.sizeMismatch
  else
    match Verify level pk msg sig primAccepts with
    | Except.error _ => Except.error WrapError.nativeFailure
    | Except.ok b => Except.ok b

/-- Signature keypair wrapper, dilithium_node_addon.cpp:39-91: level-token
validation (line 50) precedes the native call. -/
def GenerateKeypairDsaWrapped (level : String)
    (native : Option (List Byte × List Byte)) :
    Except WrapError (List Byte × List Byte) :=
  if ¬(level = "2" ∨ level = "3" ∨ level = "5") then
    Except.error WrapError.badLevel
  else
    match native with
    | none => Except.error WrapError.nativeFailure
    | some kp => Except.ok kp

/-! Helper lemmas -/

lemma U32_pos : 0 < U32 := by norm_num [U32]

lemma xor_left_comm (a b c : Nat) : a ^^^ (b ^^^ c) = b ^^^ (a ^^^ c) := by
  rw [← Nat.xor_assoc, Nat.xor_comm a b, Nat.xor_assoc]

lemma xor_mask_cancel (a s t : Nat) : a ^^^ s ^^^ t ^^^ s ^^^ t = a := by
  simp [Nat.xor_assoc, Nat.xor_comm, xor_left_comm]

lemma xor_lt_256 {x y : Nat} (hx : x < 256) (hy : y < 256) : x ^^^ y < 256 := by
  have h8 : (256 : Nat) = 2 ^ 8 := by norm_num
  rw [h8] at *
  exact Nat.xor_lt_two_pow hx hy

lemma getD_lt_of_forall {l : List Byte} {c : Nat} (h : ∀ b ∈ l, b < c)
    (hc : 0 < c) (i : Nat) : l.getD i 0 < c := by
  by_cases hi : i < l.length
  · rw [List.getD_eq_getElem l 0 hi]
    exact h _ (List.getElem_mem hi)
  · rw [List.getD_eq_default l 0 (Nat.le_of_not_lt hi)]
    exact hc

lemma maskFrom_length (ss nonce p : List Byte) :
    ∀ i, (maskFrom ss nonce i p).length = p.length := by
  induction p with
  | nil => intro i; rfl
  | cons b rest ih => intro i; simp [maskFrom, ih]

lemma maskBytes_length (p ss nonce : List Byte) :
    (maskBytes p ss nonce).length = p.length :=
  maskFrom_length ss nonce p 0

lemma maskFrom_maskFrom (ss nonce p : List Byte) :
    ∀ i, maskFrom ss nonce i (maskFrom ss nonce i p) = p := by
  induction p with
  | nil => intro i; rfl
  | cons b rest ih =>
    intro i
    simp only [maskFrom]
    exact congrArg₂ _ (xor_mask_cancel _ _ _) (ih (i + 1))

lemma maskBytes_maskBytes (p ss nonce : List Byte) :
    maskBytes (maskBytes p ss nonce) ss nonce = p :=
  maskFrom_maskFrom ss nonce p 0

lemma maskFrom_getD (ss nonce p : List Byte) :
    ∀ j i, i < p.length →
      (maskFrom ss nonce j p).getD i 0 =
        p.getD i 0 ^^^ ss.getD ((j + i) % ss.length) 0 ^^^
          nonce.getD ((j + i) % nonce.length) 0 := by
  induction p with
  | nil => intro j i h; simp at h
  | cons b rest ih =>
    intro j i h
    cases i with
    | zero => simp [maskFrom]
    | succ n =>
      have hn : n < rest.length := by simpa using h
      simp only [maskFrom, List.getD_cons_succ]
      rw [ih (j + 1) n hn]
      have harith : j + 1 + n = j + (n + 1) := by omega
      rw [harith]

lemma maskBytes_getD (p ss nonce : List Byte) (i : Nat) (h : i < p.length) :
    (maskBytes p ss nonce).getD i 0 =
      p.getD i 0 ^^^ ss.getD (i % ss.length) 0 ^^^
        nonce.getD (i % nonce.length) 0 := by
  have := maskFrom_getD ss nonce p 0 i h
  simpa using this

lemma maskFrom_set (ss nonce p : List Byte) :
    ∀ j i v, j < p.length →
      maskFrom ss nonce i (p.set j v) =
        (maskFrom ss nonce i p).set j
          (v ^^^ ss.getD ((i + j) % ss.length) 0 ^^^
            nonce.getD ((i + j) % nonce.length) 0) := by
  induction p with
  | nil => intro j i v h; simp at h
  | cons b rest ih =>
    intro j i v h
    cases j with
    | zero => simp [maskFrom, List.set]
    | succ n =>
      have hn : n < rest.length := by simpa using h
      simp only [List.set, maskFrom]
      rw [ih n (i + 1) v hn]
      have harith : i + 1 + n = i + (n + 1) := by omega
      rw [harith]

lemma maskBytes_set (p ss nonce : List Byte) (j v : Nat) (h : j < p.length) :
    maskBytes (p.set j v) ss nonce =
      (maskBytes p ss nonce).set j
        (v ^^^ ss.getD (j % ss.length) 0 ^^^ nonce.getD (j % nonce.length) 0) := by
  have := maskFrom_set ss nonce p j 0 v h
  simpa using this

lemma checksumStep_eq (cs b : Nat) :
    checksumStep cs b = (cs * 33 + b) % U32 := by
  simp only [checksumStep, U32, Nat.shiftLeft_eq]
  norm_num
  omega

lemma checksumStep_lt (cs b : Nat) : checksumStep cs b < U32 :=
  Nat.mod_lt _ U32_pos

set_option maxHeartbeats 1000000 in
lemma mul33_add_mod_inj {c1 c2 b : Nat} (h1 : c1 < U32) (h2 : c2 < U32)
    (h : (c1 * 33 + b) % U32 = (c2 * 33 + b) % U32) : c1 = c2 := by
  simp only [U32] at h1 h2 h
  have hme : c1 * 33 ≡ c2 * 33 [MOD 4294967296] := by
    have hb : c1 * 33 + b ≡ c2 * 33 + b [MOD 4294967296] := h
    exact Nat.ModEq.add_right_cancel' b hb
  have hcop : Nat.gcd 4294967296 33 = 1 := by
    have hp : (4294967296 : Nat) = 2 ^ 32 := by norm_num
    rw [hp]
    exact Nat.Coprime.pow_left 32 (by decide)
  have hfin : c1 ≡ c2 [MOD 4294967296] := Nat.ModEq.cancel_right_of_coprime hcop hme
  unfold Nat.ModEq at hfin
  omega

lemma checksumStep_inj {c1 c2 : Nat} (b : Nat) (h1 : c1 < U32) (h2 : c2 < U32)
    (h : checksumStep c1 b = checksumStep c2 b) : c1 = c2 := by
  rw [checksumStep_eq, checksumStep_eq] at h
  exact mul33_add_mod_inj h1 h2 h

lemma add_mod_U32_inj {x w b : Nat} (hw : w < U32) (hb : b < U32)
    (h : (x + w) % U32 = (x + b) % U32) : w = b := by
  simp only [U32] at hw hb h
  omega

lemma checksumStep_ne_of_ne {w b : Nat} (cs : Nat) (hw : w < U32) (hb : b < U32)
    (hne : w ≠ b) : checksumStep cs w ≠ checksumStep cs b := by
  intro h
  rw [checksumStep_eq, checksumStep_eq] at h
  exact hne (add_mod_U32_inj hw hb h)

lemma foldl_checksumStep_inj (l : List Byte) :
    ∀ c1 c2, c1 < U32 → c2 < U32 →
      List.foldl checksumStep c1 l = List.foldl checksumStep c2 l → c1 = c2 := by
  induction l with
  | nil => intro c1 c2 _ _ h; simpa using h
  | cons b rest ih =>
    intro c1 c2 h1 h2 h
    simp only [List.foldl_cons] at h
    exact checksumStep_inj b h1 h2
      (ih (checksumStep c1 b) (checksumStep c2 b)
        (checksumStep_lt _ _) (checksumStep_lt _ _) h)

lemma foldl_checksumStep_set_ne (l : List Byte) :
    ∀ j w cs, cs < U32 → j < l.length → w ≠ l.getD j 0 → w < U32 →
      l.getD j 0 < U32 →
      List.foldl checksumStep cs (l.set j w) ≠ List.foldl checksumStep cs l := by
  induction l with
  | nil => intro j w cs _ hj; simp at hj
  | cons b rest ih =>
    intro j w cs hcs hj hw hwlt hblt
    cases j with
    | zero =>
      simp only [List.set, List.foldl_cons]
      intro heq
      have hstep := foldl_checksumStep_inj rest (checksumStep cs w)
        (checksumStep cs b) (checksumStep_lt _ _) (checksumStep_lt _ _) heq
      have hb0 : (b : Nat) < U32 := by simpa using hblt
      have hwb : w ≠ b := by simpa using hw
      exact checksumStep_ne_of_ne cs hwlt hb0 hwb hstep
    | succ n =>
      simp only [List.set, List.foldl_cons]
      exact ih n w (checksumStep cs b) (checksumStep_lt _ _)
        (by simpa using hj) (by simpa using hw) hwlt (by simpa using hblt)

lemma checksum_set_ne (l : List Byte) (j w : Nat) (hj : j < l.length)
    (hw : w ≠ l.getD j 0) (hwlt : w < U32) (hblt : l.getD j 0 < U32) :
    checksum (l.set j w) ≠ checksum l :=
  foldl_checksumStep_set_ne l j w 0 U32_pos hj hw hwlt hblt

lemma foldl_checksumStep_lt (l : List Byte) :
    ∀ cs, cs < U32 → List.foldl checksumStep cs l < U32 := by
  induction l with
  | nil => intro cs h; simpa using h
  | cons b rest ih =>
    intro cs _
    simp only [List.foldl_cons]
    exact ih _ (checksumStep_lt _ _)

lemma checksum_lt (l : List Byte) : checksum l < U32 :=
  foldl_checksumStep_lt l 0 U32_pos

lemma fromLE4_toLE4 {x : Nat} (h : x < U32) : fromLE4 (toLE4 x) = x := by
  simp only [U32] at h
  simp only [fromLE4, toLE4, List.getD_cons_zero, List.getD_cons_succ]
  omega

lemma toLE4_length (x : Nat) : (toLE4 x).length = 4 := rfl

lemma hardcodedNonce_length : hardcodedNonce.length = 16 := rfl

lemma set_append_add {α : Type} (xs ys : List α) (n : Nat) (v : α) :
    (xs ++ ys).set (xs.length + n) v = xs ++ ys.set n v := by
  induction xs with
  | nil => simp
  | cons a as ih =>
    have harith : (a :: as).length + n = (as.length + n) + 1 := by
      simp
      omega
    rw [harith]
    simp only [List.cons_append, List.set, List.append_eq]
    rw [ih]

lemma Encrypt_ok {level : String} {alg : KemAlg} {pk pt kemCt ss : List Byte}
    {encaps : List Byte → Option (List Byte × List Byte)}
    (hsel : select_kyber_alg level = some alg)
    (hpk : pk.length = (kemAlgProfile alg).length_public_key)
    (henc : encaps pk = some (kemCt, ss))
    (hpt : pt ≠ []) :
    Encrypt level pk pt encaps =
      Except.ok (kemCt ++ hardcodedNonce ++ toLE4 (checksum pt) ++
        maskBytes pt ss hardcodedNonce) := by
  have h0 : ¬ pt.length = 0 := by simpa [List.length_eq_zero] using hpt
  simp [Encrypt, hsel, hpk, henc, h0]

lemma Decrypt_append {level : String} {alg : KemAlg}
    {sk kemCt nonceB csB payload : List Byte}
    {decaps : List Byte → List Byte → Option (List Byte)} {ss : List Byte}
    (hsel : select_kyber_alg level = some alg)
    (hsk : sk.length = (kemAlgProfile alg).length_secret_key)
    (hct : kemCt.length = (kemAlgProfile alg).length_ciphertext)
    (hn : nonceB.length = 16) (hcs : csB.length = 4)
    (hdec : decaps sk kemCt = some ss) :
    Decrypt level sk (kemCt ++ nonceB ++ csB ++ payload) decaps =
      if checksum (maskBytes payload ss nonceB) ≠ fromLE4 csB then
        Except.error CryptoError.integrityFailure
      else Except.ok (maskBytes payload ss nonceB) := by
  have hlen : (kemCt ++ (nonceB ++ (csB ++ payload))).length =
      (kemAlgProfile alg).length_ciphertext + 16 + 4 + payload.length := by
    simp [List.length_append, hct, hn, hcs]
    omega
  have hnotlt : ¬ (kemCt ++ (nonceB ++ (csB ++ payload))).length <
      (kemAlgProfile alg).length_ciphertext + 16 + 4 := by
    rw [hlen]
    omega
  have htake : (kemCt ++ (nonceB ++ (csB ++ payload))).take
      (kemAlgProfile alg).length_ciphertext = kemCt := List.take_left' hct
  have hdrop : (kemCt ++ (nonceB ++ (csB ++ payload))).drop
      (kemAlgProfile alg).length_ciphertext = nonceB ++ (csB ++ payload) :=
    List.drop_left' hct
  have h16 : (nonceB ++ (csB ++ payload)).take 16 = nonceB := List.take_left' hn
  have hd16 : (nonceB ++ (csB ++ payload)).drop 16 = csB ++ payload :=
    List.drop_left' hn
  have h4 : (csB ++ payload).take 4 = csB := List.take_left' hcs
  have hd20 : (nonceB ++ (csB ++ payload)).drop 20 = payload := by
    have h20 : (20 : Nat) = 16 + 4 := by norm_num
    rw [h20, ← List.drop_drop, hd16, List.drop_left' hcs]
  simp only [List.append_assoc]
  simp only [Decrypt, hsel, hsk, hnotlt, htake, hdrop, hdec, h16, hd16, h4, hd20,
    if_false, ite_not, ne_eq, not_true_eq_false, if_neg, reduceIte]

/-! Claim theorems -/

/-- C1: for every supported KEM security level in {"512", "768", "1024"},
every keypair produced by one GenerateKeypair call at that level (modelled by
profile-length keys together with the decapsulation-agreement hypothesis
`decaps sk kemCt = some ss`, which GenerateKeypair's keypair guarantees), and
every non-empty plaintext, Decrypt(level, sk, Encrypt(level, pk, plaintext))
succeeds and returns exactly the original plaintext bytes. -/
theorem C1_hybrid_roundtrip (level : String) (alg : KemAlg)
    (pk sk pt kemCt ss : List Byte)
    (encaps : List Byte → Option (List Byte × List Byte))
    (decaps : List Byte → List Byte → Option (List Byte))
    (hsel : select_kyber_alg level = some alg)
    (henc : encaps pk = some (kemCt, ss))
    (hct : kemCt.length = (kemAlgProfile alg).length_ciphertext)
    (hpk : pk.length = (kemAlgProfile alg).length_public_key)
    (hsk : sk.length = (kemAlgProfile alg).length_secret_key)
    (hdec : decaps sk kemCt = some ss)
    (hpt : pt ≠ []) :
    ∃ ct, Encrypt level pk pt encaps = Except.ok ct ∧
      Decrypt level sk ct decaps = Except.ok pt := by
  refine ⟨_, Encrypt_ok hsel hpk henc hpt, ?_⟩
  rw [Decrypt_append hsel hsk hct hardcodedNonce_length (toLE4_length _) hdec]
  rw [maskBytes_maskBytes, fromLE4_toLE4 (checksum_lt pt)]
  simp

/-- C1 witness at level 512 with concrete profile-length buffers. -/
theorem C1_hybrid_roundtrip_witness :
    select_kyber_alg ("512") = some KemAlg.mlKem512 ∧
    (List.replicate 768 (0 : Nat)).length =
      (kemAlgProfile KemAlg.mlKem512).length_ciphertext ∧
    (List.replicate 800 (0 : Nat)).length =
      (kemAlgProfile KemAlg.mlKem512).length_public_key ∧
    (List.replicate 1632 (0 : Nat)).length =
      (kemAlgProfile KemAlg.mlKem512).length_secret_key ∧
    ([42] : List Byte) ≠ [] ∧
    (∃ ct,
      Encrypt ("512") (List.replicate 800 0) [42]
        (fun _ => some (List.replicate 768 0, List.replicate 32 5)) =
        Except.ok ct ∧
      Decrypt ("512") (List.replicate 1632 0) ct
        (fun _ _ => some (List.replicate 32 5)) = Except.ok [42]) :=
  ⟨rfl, by rw [List.length_replicate]; rfl, by rw [List.length_replicate]; rfl, by rw [List.length_replicate]; rfl,
    by simp,
    C1_hybrid_roundtrip ("512") KemAlg.mlKem512 (List.replicate 800 0)
      (List.replicate 1632 0) [42] (List.replicate 768 0) (List.replicate 32 5)
      (fun _ => some (List.replicate 768 0, List.replicate 32 5))
      (fun _ _ => some (List.replicate 32 5)) rfl rfl
      (by rw [List.length_replicate]; rfl) (by rw [List.length_replicate]; rfl)
      (by rw [List.length_replicate]; rfl) rfl (by simp)⟩

/-- C8: for every valid security level and profile-length secret key, Decrypt
rejects every ciphertext strictly shorter than the profile's KEM ciphertext
length plus 20 bytes with the invalid-input error.  The conclusion holds for
every decapsulation function `decaps`, so the rejection happens before (and
independently of) any decapsulation. -/
theorem C8_short_ciphertext_rejected (level : String) (alg : KemAlg)
    (sk ct : List Byte) (decaps : List Byte → List Byte → Option (List Byte))
    (hsel : select_kyber_alg level = some alg)
    (hsk : sk.length = (kemAlgProfile alg).length_secret_key)
    (hshort : ct.length < (kemAlgProfile alg).length_ciphertext + 20) :
    Decrypt level sk ct decaps = Except.error CryptoError.invalidInput := by
  have h2 : ct.length < (kemAlgProfile alg).length_ciphertext + 16 + 4 := by
    omega
  simp [Decrypt, hsel, hsk, h2]

/-- C8 witness: level 768, a 2400-byte secret key and an empty ciphertext
are rejected, under a decapsulation function that would otherwise succeed. -/
theorem C8_short_ciphertext_rejected_witness :
    select_kyber_alg ("768") = some KemAlg.mlKem768 ∧
    (List.replicate 2400 (0 : Nat)).length =
      (kemAlgProfile KemAlg.mlKem768).length_secret_key ∧
    ([] : List Byte).length < (kemAlgProfile KemAlg.mlKem768).length_ciphertext + 20 ∧
    Decrypt ("768") (List.replicate 2400 0) []
      (fun _ _ => some (List.replicate 32 1)) =
      Except.error CryptoError.invalidInput :=
  ⟨rfl, by rw [List.length_replicate]; rfl, by decide,
    C8_short_ciphertext_rejected ("768") KemAlg.mlKem768 (List.replicate 2400 0)
      [] (fun _ _ => some (List.replicate 32 1)) rfl
      (by rw [List.length_replicate]; rfl) (by decide)⟩

/-- C10: Decrypt accepts a ciphertext of length exactly
kemCiphertextLength + 20 (empty masked payload): the length check passes and,
when decapsulation succeeds and the stored checksum is 0, it returns the
zero-length plaintext as success — while Encrypt rejects the empty plaintext,
so the round-trip domain is asymmetric at the empty boundary. -/
theorem C10_empty_payload_asymmetry (level : String) (alg : KemAlg)
    (sk kemCt nonceB ss : List Byte)
    (decaps : List Byte → List Byte → Option (List Byte))
    (hsel : select_kyber_alg level = some alg)
    (hsk : sk.length = (kemAlgProfile alg).length_secret_key)
    (hct : kemCt.length = (kemAlgProfile alg).length_ciphertext)
    (hn : nonceB.length = 16)
    (hdec : decaps sk kemCt = some ss) :
    (kemCt ++ nonceB ++ [0, 0, 0, 0]).length =
      (kemAlgProfile alg).length_ciphertext + 20 ∧
    Decrypt level sk (kemCt ++ nonceB ++ [0, 0, 0, 0]) decaps = Except.ok [] ∧
    (∀ pk encaps,
      Encrypt level pk [] encaps = Except.error CryptoError.invalidInput) := by
  refine ⟨by simp [hct, hn], ?_, by intro pk encaps; simp [Encrypt]⟩
  have hre : kemCt ++ nonceB ++ [0, 0, 0, 0] =
      kemCt ++ nonceB ++ [0, 0, 0, 0] ++ ([] : List Byte) := by simp
  rw [hre, Decrypt_append hsel hsk hct hn (by simp) hdec]
  simp [maskBytes, maskFrom, checksum, fromLE4]

/-- C10 witness at level 512. -/
theorem C10_empty_payload_asymmetry_witness :
    select_kyber_alg ("512") = some KemAlg.mlKem512 ∧
    (List.replicate 1632 (0 : Nat)).length =
      (kemAlgProfile KemAlg.mlKem512).length_secret_key ∧
    (List.replicate 768 (0 : Nat)).length =
      (kemAlgProfile KemAlg.mlKem512).length_ciphertext ∧
    (List.replicate 16 (9 : Nat)).length = 16 ∧
    ((List.replicate 768 (0 : Nat) ++ List.replicate 16 9 ++ [0, 0, 0, 0]).length =
      (kemAlgProfile KemAlg.mlKem512).length_ciphertext + 20 ∧
      Decrypt ("512") (List.replicate 1632 0)
        (List.replicate 768 0 ++ List.replicate 16 9 ++ [0, 0, 0, 0])
        (fun _ _ => some (List.replicate 32 5)) = Except.ok [] ∧
      (∀ pk encaps,
        Encrypt ("512") pk [] encaps = Except.error CryptoError.invalidInput)) :=
  ⟨rfl, by rw [List.length_replicate]; rfl, by rw [List.length_replicate]; rfl, by simp,
    C10_empty_payload_asymmetry ("512") KemAlg.mlKem512 (List.replicate 1632 0)
      (List.replicate 768 0) (List.replicate 16 9) (List.replicate 32 5)
      (fun _ _ => some (List.replicate 32 5)) rfl (by rw [List.length_replicate]; rfl)
      (by rw [List.length_replicate]; rfl) (by simp) rfl⟩

/-- C4 (fixed-nonce defect, evaluated): two Encrypt calls with different
plaintexts both embed the identical hardcoded nonce 0x01..0x10 in the nonce
field of the produced HybridCiphertext, so the nonce is neither fresh nor
random — the code contradicts the spec's design requirement of a
cryptographically random nonce per call. -/
theorem C4_fixed_nonce_defect :
    ∃ ct1 ct2,
      Encrypt ("512") (List.replicate 800 0) [1]
        (fun _ => some (List.replicate 768 0, List.replicate 32 7)) =
        Except.ok ct1 ∧
      Encrypt ("512") (List.replicate 800 0) [2]
        (fun _ => some (List.replicate 768 0, List.replicate 32 7)) =
        Except.ok ct2 ∧
      (ct1.drop 768).take 16 = hardcodedNonce ∧
      (ct2.drop 768).take 16 = hardcodedNonce ∧
      (ct1.drop 768).take 16 = (ct2.drop 768).take 16 ∧
      hardcodedNonce = [1, 2, 3, 4, 5, 6, 7, 8, 9, 10, 11, 12, 13, 14, 15, 16] := by
  have hrep : (List.replicate 768 (0 : Nat)).length = 768 := by rw [List.length_replicate]
  refine ⟨_, _,
    Encrypt_ok rfl (by rw [List.length_replicate]; rfl) rfl (List.cons_ne_nil _ _),
    Encrypt_ok rfl (by rw [List.length_replicate]; rfl) rfl (List.cons_ne_nil _ _), ?_, ?_, ?_, rfl⟩
  · simp only [List.append_assoc]
    rw [List.drop_left' hrep, List.take_left' hardcodedNonce_length]
  · simp only [List.append_assoc]
    rw [List.drop_left' hrep, List.take_left' hardcodedNonce_length]
  · simp only [List.append_assoc]
    rw [List.drop_left' hrep, List.take_left' hardcodedNonce_length,
      List.drop_left' hrep, List.take_left' hardcodedNonce_length]

/-- C2: for every well-formed HybridCiphertext (KEM ciphertext, 16-byte
nonce, checksum over the plaintext, masked payload) and every corruption
that changes exactly one byte of the masked-payload region, Decrypt with the
matching secret key returns the integrity-failure error — carrying no
plaintext bytes — never an altered plaintext. -/
theorem C2_single_byte_corruption (level : String) (alg : KemAlg)
    (sk pt kemCt ss nonceB : List Byte)
    (decaps : List Byte → List Byte → Option (List Byte)) (j v : Nat)
    (hsel : select_kyber_alg level = some alg)
    (hsk : sk.length = (kemAlgProfile alg).length_secret_key)
    (hct : kemCt.length = (kemAlgProfile alg).length_ciphertext)
    (hn : nonceB.length = 16)
    (hnb : ∀ b ∈ nonceB, b < 256)
    (hptb : ∀ b ∈ pt, b < 256)
    (hssb : ∀ b ∈ ss, b < 256)
    (hv : v < 256)
    (hj : j < pt.length)
    (hchange : v ≠ (maskBytes pt ss nonceB).getD j 0)
    (hdec : decaps sk kemCt = some ss) :
    Decrypt level sk
      ((kemCt ++ nonceB ++ toLE4 (checksum pt) ++ maskBytes pt ss nonceB).set
        ((kemAlgProfile alg).length_ciphertext + 20 + j) v) decaps =
      Except.error CryptoError.integrityFailure := by
  have hjm : j < (maskBytes pt ss nonceB).length := by
    rw [maskBytes_length]
    exact hj
  have hxlen : (kemCt ++ nonceB ++ toLE4 (checksum pt)).length =
      (kemAlgProfile alg).length_ciphertext + 20 := by
    simp only [List.length_append, toLE4_length, hct, hn]
  have epos : (kemAlgProfile alg).length_ciphertext + 20 + j =
      (kemCt ++ nonceB ++ toLE4 (checksum pt)).length + j := by
    rw [hxlen]
  rw [epos, set_append_add,
    Decrypt_append hsel hsk hct hn (toLE4_length _) hdec,
    maskBytes_set _ _ _ _ _ hjm, maskBytes_maskBytes,
    fromLE4_toLE4 (checksum_lt pt)]
  have hs : ss.getD (j % ss.length) 0 < 256 :=
    getD_lt_of_forall hssb (by norm_num) _
  have ht : nonceB.getD (j % nonceB.length) 0 < 256 :=
    getD_lt_of_forall hnb (by norm_num) _
  have hw : v ^^^ ss.getD (j % ss.length) 0 ^^^ nonceB.getD (j % nonceB.length) 0 < 256 :=
    xor_lt_256 (xor_lt_256 hv hs) ht
  have hptj : pt.getD j 0 < 256 := getD_lt_of_forall hptb (by norm_num) _
  have h256U : (256 : Nat) < U32 := by norm_num [U32]
  have hwne : v ^^^ ss.getD (j % ss.length) 0 ^^^ nonceB.getD (j % nonceB.length) 0 ≠
      pt.getD j 0 := by
    intro he
    apply hchange
    rw [maskBytes_getD pt ss nonceB j hj, ← he, xor_mask_cancel]
  have hne := checksum_set_ne pt j _ hj hwne (lt_trans hw h256U) (lt_trans hptj h256U)
  rw [if_pos hne]

/-- C2 witness: at level 512, with a 1-byte plaintext whose masked byte is
flipped from 1 to 2, Decrypt reports an integrity failure. -/
theorem C2_single_byte_corruption_witness :
    select_kyber_alg ("512") = some KemAlg.mlKem512 ∧
    (List.replicate 1632 (0 : Nat)).length =
      (kemAlgProfile KemAlg.mlKem512).length_secret_key ∧
    (List.replicate 768 (0 : Nat)).length =
      (kemAlgProfile KemAlg.mlKem512).length_ciphertext ∧
    hardcodedNonce.length = 16 ∧
    (∀ b ∈ hardcodedNonce, b < 256) ∧
    (∀ b ∈ ([0] : List Byte), b < 256) ∧
    (∀ b ∈ List.replicate 32 (0 : Nat), b < 256) ∧
    (2 : Nat) < 256 ∧
    (0 : Nat) < ([0] : List Byte).length ∧
    (2 : Nat) ≠ (maskBytes [0] (List.replicate 32 0) hardcodedNonce).getD 0 0 ∧
    Decrypt ("512") (List.replicate 1632 0)
      ((List.replicate 768 0 ++ hardcodedNonce ++ toLE4 (checksum [0]) ++
        maskBytes [0] (List.replicate 32 0) hardcodedNonce).set
        ((kemAlgProfile KemAlg.mlKem512).length_ciphertext + 20 + 0) 2)
      (fun _ _ => some (List.replicate 32 0)) =
      Except.error CryptoError.integrityFailure :=
  ⟨rfl, by rw [List.length_replicate]; rfl, by rw [List.length_replicate]; rfl,
    rfl, by decide, by decide, by decide, by decide, by decide, by decide,
    C2_single_byte_corruption ("512") KemAlg.mlKem512 (List.replicate 1632 0)
      [0] (List.replicate 768 0) (List.replicate 32 0) hardcodedNonce
      (fun _ _ => some (List.replicate 32 0)) 0 2 rfl
      (by rw [List.length_replicate]; rfl) (by rw [List.length_replicate]; rfl)
      rfl (by decide) (by decide) (by decide) (by decide) (by decide)
      (by decide) rfl⟩

/-- C6: the masked payload has exactly the plaintext's length; every byte
obeys maskedPayload[i] = plaintext[i] XOR sharedSecret[i mod |ss|] XOR
nonce[i mod |nonce|]; the masking is an involution under the same keystream;
Encrypt places exactly this masked payload in the container; and Decrypt
unmasks the payload region with the identical rule. -/
theorem C6_mask_rule :
    (∀ p ss n, (maskBytes p ss n).length = p.length) ∧
    (∀ p ss n i, i < p.length →
      (maskBytes p ss n).getD i 0 =
        p.getD i 0 ^^^ ss.getD (i % ss.length) 0 ^^^ n.getD (i % n.length) 0) ∧
    (∀ p ss n, maskBytes (maskBytes p ss n) ss n = p) ∧
    (∀ level alg pk pt kemCt ss encaps,
      select_kyber_alg level = some alg →
      pk.length = (kemAlgProfile alg).length_public_key →
      encaps pk = some (kemCt, ss) → pt ≠ [] →
      Encrypt level pk pt encaps = Except.ok (kemCt ++ hardcodedNonce ++
        toLE4 (checksum pt) ++ maskBytes pt ss hardcodedNonce)) ∧
    (∀ level alg sk kemCt nonceB csB payload decaps ss,
      select_kyber_alg level = some alg →
      sk.length = (kemAlgProfile alg).length_secret_key →
      kemCt.length = (kemAlgProfile alg).length_ciphertext →
      nonceB.length = 16 → csB.length = 4 →
      decaps sk kemCt = some ss →
      checksum (maskBytes payload ss nonceB) = fromLE4 csB →
      Decrypt level sk (kemCt ++ nonceB ++ csB ++ payload) decaps =
        Except.ok (maskBytes payload ss nonceB)) := by
  refine ⟨maskBytes_length, maskBytes_getD, maskBytes_maskBytes, ?_, ?_⟩
  · intro level alg pk pt kemCt ss encaps hsel hpk henc hpt
    exact Encrypt_ok hsel hpk henc hpt
  · intro level alg sk kemCt nonceB csB payload decaps ss hsel hsk hct hn hcs
      hdec hsum
    rw [Decrypt_append hsel hsk hct hn hcs hdec, if_neg (by simp [hsum])]

/-- C6 witness: concrete instances of each component, including an Encrypt
call at level 512 and a Decrypt call that unmasks an empty payload. -/
theorem C6_mask_rule_witness :
    (maskBytes [5, 6] [3] [12]).length = ([5, 6] : List Byte).length ∧
    ((0 : Nat) < ([5, 6] : List Byte).length ∧
      (maskBytes [5, 6] [3] [12]).getD 0 0 =
        ([5, 6] : List Byte).getD 0 0 ^^^
          ([3] : List Byte).getD (0 % ([3] : List Byte).length) 0 ^^^
          ([12] : List Byte).getD (0 % ([12] : List Byte).length) 0) ∧
    maskBytes (maskBytes [5, 6] [3] [12]) [3] [12] = [5, 6] ∧
    Encrypt ("512") (List.replicate 800 0) [7]
      (fun _ => some (List.replicate 768 0, List.replicate 32 4)) =
      Except.ok (List.replicate 768 0 ++ hardcodedNonce ++
        toLE4 (checksum [7]) ++
        maskBytes [7] (List.replicate 32 4) hardcodedNonce) ∧
    (checksum (maskBytes [] (List.replicate 32 4) hardcodedNonce) =
      fromLE4 [0, 0, 0, 0] ∧
      Decrypt ("512") (List.replicate 1632 0)
        (List.replicate 768 0 ++ hardcodedNonce ++ [0, 0, 0, 0] ++ [])
        (fun _ _ => some (List.replicate 32 4)) =
        Except.ok (maskBytes [] (List.replicate 32 4) hardcodedNonce)) :=
  ⟨C6_mask_rule.1 [5, 6] [3] [12],
    ⟨by decide, C6_mask_rule.2.1 [5, 6] [3] [12] 0 (by decide)⟩,
    C6_mask_rule.2.2.1 [5, 6] [3] [12],
    C6_mask_rule.2.2.2.1 ("512") KemAlg.mlKem512 (List.replicate 800 0) [7]
      (List.replicate 768 0) (List.replicate 32 4)
      (fun _ => some (List.replicate 768 0, List.replicate 32 4)) rfl
      (by rw [List.length_replicate]; rfl) rfl (List.cons_ne_nil _ _),
    ⟨by decide,
      C6_mask_rule.2.2.2.2 ("512") KemAlg.mlKem512 (List.replicate 1632 0)
        (List.replicate 768 0) hardcodedNonce [0, 0, 0, 0] []
        (fun _ _ => some (List.replicate 32 4)) (List.replicate 32 4) rfl
        (by rw [List.length_replicate]; rfl) (by rw [List.length_replicate]; rfl)
        rfl rfl rfl (by decide)⟩⟩

/-- C7: the embedded checksum equals the 32-bit rolling hash
cs_0 = 0, cs_next = (cs * 33 + byte) mod 2 ^ 32 — the code's
((checksum << 5) + checksum) + byte computes exactly multiplication by 33
modulo 2 ^ 32 — and it is stored as 4 little-endian bytes at byte offset
kemCiphertextLength + 16 of the container. -/
theorem C7_checksum_layout :
    (∀ l, checksum l = specChecksum33 l) ∧
    (∀ x, toLE4 x =
      [x % 256, x / 256 % 256, x / 65536 % 256, x / 16777216 % 256]) ∧
    (∀ x, x < 2 ^ 32 → fromLE4 (toLE4 x) = x) ∧
    (∀ level alg pk pt kemCt ss encaps ct,
      select_kyber_alg level = some alg →
      pk.length = (kemAlgProfile alg).length_public_key →
      encaps pk = some (kemCt, ss) → pt ≠ [] →
      kemCt.length = (kemAlgProfile alg).length_ciphertext →
      Encrypt level pk pt encaps = Except.ok ct →
      (ct.drop ((kemAlgProfile alg).length_ciphertext + 16)).take 4 =
        toLE4 (checksum pt)) := by
  have hU : U32 = 2 ^ 32 := by norm_num [U32]
  have hstep : ∀ (l : List Byte) (cs : Nat),
      List.foldl checksumStep cs l =
        List.foldl (fun cs b => (cs * 33 + b) % 2 ^ 32) cs l := by
    intro l
    induction l with
    | nil => intro cs; rfl
    | cons b rest ih =>
      intro cs
      rw [List.foldl_cons, List.foldl_cons, ih, checksumStep_eq, hU]
  refine ⟨?_, fun x => rfl, ?_, ?_⟩
  · intro l
    simp only [checksum, specChecksum33, hstep]
  · intro x hx
    exact fromLE4_toLE4 (by rw [hU]; exact hx)
  · intro level alg pk pt kemCt ss encaps ct hsel hpk henc hpt hctlen hok
    have hstruct := Encrypt_ok hsel hpk henc hpt
    have hcteq : kemCt ++ hardcodedNonce ++ toLE4 (checksum pt) ++
        maskBytes pt ss hardcodedNonce = ct :=
      Except.ok.inj (hstruct.symm.trans hok)
    rw [← hcteq]
    simp only [List.append_assoc]
    rw [← List.drop_drop, List.drop_left' hctlen,
      List.drop_left' hardcodedNonce_length, List.take_left' (toLE4_length _)]

/-- C7 witness: the recurrence identity evaluated on [1, 2], the
little-endian round-trip at 5, and the placement of the checksum in a
concrete level-"512" ciphertext. -/
theorem C7_checksum_layout_witness :
    checksum [1, 2] = specChecksum33 [1, 2] ∧
    ((5 : Nat) < 2 ^ 32 ∧ fromLE4 (toLE4 5) = 5) ∧
    (Encrypt ("512") (List.replicate 800 0) [9]
      (fun _ => some (List.replicate 768 0, List.replicate 32 4)) =
      Except.ok (List.replicate 768 0 ++ hardcodedNonce ++
        toLE4 (checksum [9]) ++
        maskBytes [9] (List.replicate 32 4) hardcodedNonce) ∧
    (((List.replicate 768 (0 : Nat) ++ hardcodedNonce ++ toLE4 (checksum [9]) ++
        maskBytes [9] (List.replicate 32 4) hardcodedNonce).drop
        ((kemAlgProfile KemAlg.mlKem512).length_ciphertext + 16)).take 4 =
      toLE4 (checksum [9]))) :=
  ⟨C7_checksum_layout.1 [1, 2], ⟨by decide, C7_checksum_layout.2.2.1 5 (by decide)⟩,
    Encrypt_ok rfl (by rw [List.length_replicate]; rfl) rfl (List.cons_ne_nil _ _),
    C7_checksum_layout.2.2.2 ("512") KemAlg.mlKem512 (List.replicate 800 0) [9]
      (List.replicate 768 0) (List.replicate 32 4)
      (fun _ => some (List.replicate 768 0, List.replicate 32 4))
      (List.replicate 768 0 ++ hardcodedNonce ++ toLE4 (checksum [9]) ++
        maskBytes [9] (List.replicate 32 4) hardcodedNonce) rfl
      (by rw [List.length_replicate]; rfl) rfl (List.cons_ne_nil _ _)
      (by rw [List.length_replicate]; rfl)
      (Encrypt_ok rfl (by rw [List.length_replicate]; rfl) rfl
        (List.cons_ne_nil _ _))⟩

/-- C9: security-level resolution is deterministic and total on exactly the
documented tokens: "512"/"768"/"1024" resolve for the KEM family and
"2"/"3"/"5" for the signature family; every wrapped operation given any
other token fails with the invalid-security-level error for every choice of
the remaining arguments and of the native primitives, so the failure is
raised before any native handle or output buffer is involved. -/
theorem C9_level_resolution :
    (select_kyber_alg ("512") = some KemAlg.mlKem512 ∧
      select_kyber_alg ("768") = some KemAlg.mlKem768 ∧
      select_kyber_alg ("1024") = some KemAlg.mlKem1024) ∧
    (∀ s, s ≠ "512" → s ≠ "768" → s ≠ "1024" → select_kyber_alg s = none) ∧
    (select_dilithium_alg ("2") = some SigAlg.mlDsa44 ∧
      select_dilithium_alg ("3") = some SigAlg.mlDsa65 ∧
      select_dilithium_alg ("5") = some SigAlg.mlDsa87) ∧
    (∀ s, s ≠ "2" → s ≠ "3" → s ≠ "5" → select_dilithium_alg s = none) ∧
    (∀ s, ¬(s = "512" ∨ s = "768" ∨ s = "1024") →
      (∀ native, GenerateKeypairKemWrapped s native =
        Except.error WrapError.badLevel) ∧
      (∀ pk pt encaps, EncryptWrapped s pk pt encaps =
        Except.error WrapError.badLevel) ∧
      (∀ sk ct decaps, DecryptWrapped s sk ct decaps =
        Except.error WrapError.badLevel)) ∧
    (∀ s, ¬(s = "2" ∨ s = "3" ∨ s = "5") →
      (∀ native, GenerateKeypairDsaWrapped s native =
        Except.error WrapError.badLevel) ∧
      (∀ sk msg prim, SignWrapped s sk msg prim =
        Except.error WrapError.badLevel) ∧
      (∀ pk msg sig prim, VerifyWrapped s pk msg sig prim =
        Except.error WrapError.badLevel)) := by
  refine ⟨⟨rfl, rfl, rfl⟩, ?_, ⟨rfl, rfl, rfl⟩, ?_, ?_, ?_⟩
  · intro s h1 h2 h3
    simp [select_kyber_alg, h1, h2, h3]
  · intro s h1 h2 h3
    simp [select_dilithium_alg, h1, h2, h3]
  · intro s h
    refine ⟨fun native => ?_, fun pk pt encaps => ?_, fun sk ct decaps => ?_⟩
    · simp [GenerateKeypairKemWrapped, h]
    · simp [EncryptWrapped, h]
    · simp [DecryptWrapped, h]
  · intro s h
    refine ⟨fun native => ?_, fun sk msg prim => ?_,
      fun pk msg sig prim => ?_⟩
    · simp [GenerateKeypairDsaWrapped, h]
    · simp [SignWrapped, h]
    · simp [VerifyWrapped, h]

/-- C9 witness: the token 999 resolves in neither family and makes every
wrapped operation fail with the invalid-security-level error. -/
theorem C9_level_resolution_witness :
    select_kyber_alg ("999") = none ∧
    select_dilithium_alg ("999") = none ∧
    GenerateKeypairKemWrapped ("999") none = Except.error WrapError.badLevel ∧
    EncryptWrapped ("999") [1] [1] (fun _ => none) =
      Except.error WrapError.badLevel ∧
    DecryptWrapped ("999") [1] [1] (fun _ _ => none) =
      Except.error WrapError.badLevel ∧
    GenerateKeypairDsaWrapped ("999") none = Except.error WrapError.badLevel ∧
    SignWrapped ("999") [1] [1] none = Except.error WrapError.badLevel ∧
    VerifyWrapped ("999") [1] [1] [1] false = Except.error WrapError.badLevel :=
  ⟨C9_level_resolution.2.1 ("999") (by decide) (by decide) (by decide),
    C9_level_resolution.2.2.2.1 ("999") (by decide) (by decide) (by decide),
    (C9_level_resolution.2.2.2.2.1 ("999") (by decide)).1 none,
    (C9_level_resolution.2.2.2.2.1 ("999") (by decide)).2.1 [1] [1] _,
    (C9_level_resolution.2.2.2.2.1 ("999") (by decide)).2.2 [1] [1] _,
    (C9_level_resolution.2.2.2.2.2 ("999") (by decide)).1 none,
    (C9_level_resolution.2.2.2.2.2 ("999") (by decide)).2.1 [1] [1] none,
    (C9_level_resolution.2.2.2.2.2 ("999") (by decide)).2.2 [1] [1] [1] false⟩

/-- C5: for every valid signature security level, profile-length public key,
non-empty message and non-empty signature, a primitive rejection
(`OQS_SIG_verify` returning non-success for a well-formed but
cryptographically failing signature) makes Verify return the distinct
"invalid" outcome — the C function returns 1 and the wrapper returns the
boolean false — never a thrown error. -/
theorem C5_reject_is_boolean_result (level : String) (pk msg sig : List Byte)
    (hlv : level = "2" ∨ level = "3" ∨ level = "5")
    (hpk : pk.length = dsaExpectedPubKeySize level)
    (hm : msg ≠ []) (hs : sig ≠ []) :
    Verify level pk msg sig false = Except.ok false ∧
    VerifyWrapped level pk msg sig false = Except.ok false := by
  have hm0 : ¬ msg.length = 0 := by simpa [List.length_eq_zero] using hm
  have hs0 : ¬ sig.length = 0 := by simpa [List.length_eq_zero] using hs
  rcases hlv with h | h | h <;> subst h <;>
    rw [dsaExpectedPubKeySize] at hpk <;> simp at hpk <;>
    constructor <;>
    simp [Verify, VerifyWrapped, select_dilithium_alg, sigAlgProfile,
      dsaExpectedPubKeySize, hm0, hs0, hpk]

/-- C5 witness: level 2, a 1312-byte public key, 1-byte message and
signature, primitive rejecting. -/
theorem C5_reject_is_boolean_result_witness :
    (("2" : String) = "2" ∨ ("2" : String) = "3" ∨ ("2" : String) = "5") ∧
    (List.replicate 1312 (0 : Nat)).length = dsaExpectedPubKeySize ("2") ∧
    ([1] : List Byte) ≠ [] ∧ ([1] : List Byte) ≠ [] ∧
    (Verify ("2") (List.replicate 1312 0) [1] [1] false = Except.ok false ∧
      VerifyWrapped ("2") (List.replicate 1312 0) [1] [1] false =
        Except.ok false) :=
  ⟨Or.inl rfl, by rw [List.length_replicate]; rfl, List.cons_ne_nil _ _,
    List.cons_ne_nil _ _,
    C5_reject_is_boolean_result ("2") (List.replicate 1312 0) [1] [1]
      (Or.inl rfl) (by rw [List.length_replicate]; rfl)
      (List.cons_ne_nil _ _) (List.cons_ne_nil _ _)⟩

/-- C3 counterexample: at level 2 with a correct 1312-byte public key, a
non-empty 1-byte signature (whose length differs from the profile's
2420-byte signature length) and a rejecting primitive, Verify returns the
boolean result false — not an InvalidInput error — so the claim that every
wrong-length signature buffer yields InvalidInput is false. -/
theorem C3_counterexample :
    (1 : Nat) ≠ (sigAlgProfile SigAlg.mlDsa44).length_signature ∧
    select_dilithium_alg ("2") = some SigAlg.mlDsa44 ∧
    ([0] : List Byte).length = 1 ∧
    VerifyWrapped ("2") (List.replicate 1312 0) [0] [0] false =
      Except.ok false := by
  refine ⟨by decide, rfl, rfl, ?_⟩
  have hplen : (List.replicate 1312 (0 : Nat)).length = 1312 := by
    rw [List.length_replicate]
  generalize hgen : List.replicate 1312 (0 : Nat) = pk at hplen ⊢
  simp [VerifyWrapped, Verify, select_dilithium_alg, dsaExpectedPubKeySize,
    sigAlgProfile, hplen]

/-- C3 (amended): length enforcement holds for the key buffers — a public
key of the wrong length in Verify/Encrypt or a secret key of the wrong
length in Sign/Decrypt yields an InvalidInput-class error (empty-buffer or
size-mismatch) — but the signature buffer is only checked for
non-emptiness: a non-empty signature of any length, including one differing
from the profile's signature length, is forwarded to the primitive, and a
primitive rejection surfaces as the boolean result false, not as
InvalidInput. -/
theorem C3_length_enforcement_amended :
    (∀ level pk msg sig prim, (level = "2" ∨ level = "3" ∨ level = "5") →
      pk.length ≠ dsaExpectedPubKeySize level →
      ∃ e, VerifyWrapped level pk msg sig prim = Except.error e ∧
        e.isInvalidInputClass = true) ∧
    (∀ level sk msg prim, (level = "2" ∨ level = "3" ∨ level = "5") →
      sk.length ≠ dsaExpectedSecKeySize level →
      ∃ e, SignWrapped level sk msg prim = Except.error e ∧
        e.isInvalidInputClass = true) ∧
    (∀ level pk pt encaps, (level = "512" ∨ level = "768" ∨ level = "1024") →
      pk.length ≠ kemExpectedPubKeySize level →
      ∃ e, EncryptWrapped level pk pt encaps = Except.error e ∧
        e.isInvalidInputClass = true) ∧
    (∀ level sk ct decaps, (level = "512" ∨ level = "768" ∨ level = "1024") →
      sk.length ≠ kemExpectedSecKeySize level →
      ∃ e, DecryptWrapped level sk ct decaps = Except.error e ∧
        e.isInvalidInputClass = true) ∧
    (∀ level pk msg sig, (level = "2" ∨ level = "3" ∨ level = "5") →
      pk.length = dsaExpectedPubKeySize level → msg ≠ [] → sig ≠ [] →
      VerifyWrapped level pk msg sig false = Except.ok false) := by
  refine ⟨?_, ?_, ?_, ?_, ?_⟩
  · intro level pk msg sig prim hlv hne
    unfold VerifyWrapped
    split_ifs with h1 h2 h3
    · exact ⟨WrapError.emptyBuffer, rfl, rfl⟩
    · exact ⟨WrapError.emptyBuffer, rfl, rfl⟩
    · exact ⟨WrapError.emptyBuffer, rfl, rfl⟩
    · exact ⟨WrapError.sizeMismatch, rfl, rfl⟩
  · intro level sk msg prim hlv hne
    unfold SignWrapped
    split_ifs with h1 h2
    · exact ⟨WrapError.emptyBuffer, rfl, rfl⟩
    · exact ⟨WrapError.emptyBuffer, rfl, rfl⟩
    · exact ⟨WrapError.sizeMismatch, rfl, rfl⟩
  · intro level pk pt encaps hlv hne
    unfold EncryptWrapped
    split_ifs with h1 h2
    · exact ⟨WrapError.emptyBuffer, rfl, rfl⟩
    · exact ⟨WrapError.emptyBuffer, rfl, rfl⟩
    · exact ⟨WrapError.sizeMismatch, rfl, rfl⟩
  · intro level sk ct decaps hlv hne
    unfold DecryptWrapped
    split_ifs with h1 h2
    · exact ⟨WrapError.emptyBuffer, rfl, rfl⟩
    · exact ⟨WrapError.emptyBuffer, rfl, rfl⟩
    · exact ⟨WrapError.sizeMismatch, rfl, rfl⟩
  · intro level pk msg sig hlv hpk hm hs
    have hm0 : ¬ msg.length = 0 := by simpa [List.length_eq_zero] using hm
    have hs0 : ¬ sig.length = 0 := by simpa [List.length_eq_zero] using hs
    rcases hlv with h | h | h <;> subst h <;>
      rw [dsaExpectedPubKeySize] at hpk <;> simp at hpk <;>
      simp [Verify, VerifyWrapped, select_dilithium_alg, sigAlgProfile,
        dsaExpectedPubKeySize, hm0, hs0, hpk]

/-- C3 amended-claim witness: a 1-byte public key is rejected as
InvalidInput by every key-consuming wrapper, while a 1-byte (wrong-length)
signature with a rejecting primitive yields the boolean false. -/
theorem C3_length_enforcement_amended_witness :
    (("2" : String) = "2" ∨ ("2" : String) = "3" ∨ ("2" : String) = "5") ∧
    ([0] : List Byte).length ≠ dsaExpectedPubKeySize ("2") ∧
    ([0] : List Byte).length ≠ dsaExpectedSecKeySize ("2") ∧
    (("512" : String) = "512" ∨ ("512" : String) = "768" ∨
      ("512" : String) = "1024") ∧
    ([0] : List Byte).length ≠ kemExpectedPubKeySize ("512") ∧
    ([0] : List Byte).length ≠ kemExpectedSecKeySize ("512") ∧
    (∃ e, VerifyWrapped ("2") [0] [1] [1] false = Except.error e ∧
      e.isInvalidInputClass = true) ∧
    (∃ e, SignWrapped ("2") [0] [1] none = Except.error e ∧
      e.isInvalidInputClass = true) ∧
    (∃ e, EncryptWrapped ("512") [0] [1] (fun _ => none) = Except.error e ∧
      e.isInvalidInputClass = true) ∧
    (∃ e, DecryptWrapped ("512") [0] [1] (fun _ _ => none) = Except.error e ∧
      e.isInvalidInputClass = true) ∧
    (List.replicate 1312 (0 : Nat)).length = dsaExpectedPubKeySize ("2") ∧
    ([3] : List Byte) ≠ [] ∧
    VerifyWrapped ("2") (List.replicate 1312 0) [1] [3] false =
      Except.ok false :=
  ⟨Or.inl rfl, by decide, by decide, Or.inl rfl, by decide, by decide,
    C3_length_enforcement_amended.1 ("2") [0] [1] [1] false (Or.inl rfl)
      (by decide),
    C3_length_enforcement_amended.2.1 ("2") [0] [1] none (Or.inl rfl)
      (by decide),
    C3_length_enforcement_amended.2.2.1 ("512") [0] [1] (fun _ => none)
      (Or.inl rfl) (by decide),
    C3_length_enforcement_amended.2.2.2.1 ("512") [0] [1] (fun _ _ => none)
      (Or.inl rfl) (by decide),
    by rw [List.length_replicate]; rfl, List.cons_ne_nil _ _,
    C3_length_enforcement_amended.2.2.2.2 ("2") (List.replicate 1312 0) [1] [3]
      (Or.inl rfl) (by rw [List.length_replicate]; rfl)
      (List.cons_ne_nil _ _) (List.cons_ne_nil _ _)⟩

end Keystone
